import Mathlib

/-!
Verification of the Mudras hand-controlled CV sequencer firmware.

Shallow embedding of the firmware sources:
* the canonical revision (the one with the reset input, the audio-taper
  threshold tables and the dual scale/linear sequence storage) is embedded
  as `MState` together with `playSeq`, `recordSeq`, `gate`, `reset`,
  `incrementAndWrapCount` and `clockStep`;
* the earlier `mudras.ino` revision (the one with the `countFlag`
  play-to-record transition detection) is embedded as `InoState` together
  with `inoPlaySeq`, `inoRecordSeq`, `inoReadsensor` and `inoClockStep`.

Machine integers are modelled as `ℕ`/`ℤ` with explicit `% 256` where the
source stores into a `uint8_t`.  C `float` arithmetic is modelled exactly
over `ℚ` (the source only adds, subtracts, multiplies, divides and takes
one final `ceil`).  Out-of-bounds array accesses, which are undefined
behaviour in the source language, are modelled by `Option`: a step that
would read or write outside an array returns `none`.
-/

set_option maxRecDepth 40000

namespace Mudras

/-- Arduino `map(x, in_min, in_max, out_min, out_max)`:
`(x - in_min) * (out_max - out_min) / (in_max - in_min) + out_min`,
with C++ `long` division, which truncates toward zero (`Int.tdiv`). -/
def amap (x inMin inMax outMin outMax : ℤ) : ℤ :=
  Int.tdiv ((x - inMin) * (outMax - outMin)) (inMax - inMin) + outMin

/-- Arduino `constrain(amt, low, high)`:
`(amt < low) ? low : ((amt > high) ? high : amt)`. -/
def constrainI (x lo hi : ℤ) : ℤ :=
  if x < lo then lo else if hi < x then hi else x

/-- Floor of a rational, computed from its normalised numerator and
denominator (the denominator is always positive). -/
def floorQ (q : ℚ) : ℤ := Int.fdiv q.num (q.den : ℤ)

/-- Ceiling of a rational; models the C `ceil` call applied to the
exactly-computed value. -/
def ceilQ (q : ℚ) : ℤ := -(floorQ (-q))

/-- `semitones_per_octave = 12.0f`. -/
def semitones_per_octave : ℚ := 12

/-- `volts_per_semitone = 1.0f / semitones_per_octave`. -/
def volts_per_semitone : ℚ := 1 / semitones_per_octave

/-- `fix = 0.000` (DIY calibration offset). -/
def fix : ℚ := 0

/-- `midi_note_to_volts(midi_note) = midi_note * volts_per_semitone`. -/
def midi_note_to_volts (midi_note : ℕ) : ℚ :=
  (midi_note : ℚ) * volts_per_semitone

/-- `volts_to_DAC(volts, resolution, min_volt, max_volt)`: normalise into
the voltage range, scale by `resolution - 1` and round up with `ceil`.
The source performs no clamping of the result. -/
def volts_to_DAC (volts : ℚ) (resolution : ℕ) (min_volt max_volt : ℚ) : ℤ :=
  let volt_range := max_volt - min_volt
  let normalized_value := (volts - min_volt) / volt_range
  ceilQ (normalized_value * ((resolution - 1 : ℕ) : ℚ))

/-- `RESOLUTION_12_BIT`. -/
def RESOLUTION_12_BIT : ℕ := 4096

/-- The compact per-octave interval patterns `scalePatterns[7][12]`.
Rows shorter than 12 in the C initialiser are zero-filled, exactly as a
C aggregate initialiser does.  Row order: Major, Minor, MinorPentatonic,
HarmonicMinor, Diminished, WholeTone, Chromatic. -/
def scalePatterns : List (List ℕ) :=
  [[0, 2, 4, 5, 7, 9, 11, 255, 0, 0, 0, 0],
   [0, 2, 3, 5, 7, 8, 10, 255, 0, 0, 0, 0],
   [0, 3, 5, 7, 10, 255, 0, 0, 0, 0, 0, 0],
   [0, 2, 3, 5, 7, 8, 11, 255, 0, 0, 0, 0],
   [0, 1, 3, 4, 6, 7, 9, 10, 255, 0, 0, 0],
   [0, 2, 4, 6, 8, 10, 255, 0, 0, 0, 0, 0],
   [0, 1, 2, 3, 4, 5, 6, 7, 8, 9, 10, 11]]

/-- The trailing `memset(&fullScales[s][noteIndex], 36, 37 - noteIndex)`:
pad the generated prefix with the value 36 up to 37 entries. -/
def fillFrom (acc : List ℕ) (noteIndex : ℕ) : List ℕ :=
  acc ++ List.replicate (37 - noteIndex) 36

/-- The `while (noteIndex < 37)` loop of `generateFullScales`, one scale
row at a time.  `pat` is the 12-entry pattern row; a pattern read outside
the row (undefined behaviour in C) yields `none`.  On the sentinel 255 the
pattern index restarts at 0, the octave counter advances, and generation
breaks once `octave >= 4`; the emitted byte is stored into a `uint8_t`,
hence `% 256`.  The octave multiplier always equals `octave * 12`. -/
def genLoop (pat : List ℕ) : ℕ → ℕ → ℕ → ℕ → List ℕ → Option (List ℕ)
  | 0, _, _, _, _ => none
  | fuel + 1, noteIndex, patternIndex, octave, acc =>
    if noteIndex < 37 then
      match pat.get? patternIndex with
      | none => none
      | some v =>
        if v = 255 then
          if 4 ≤ octave + 1 then some (fillFrom acc noteIndex)
          else
            match pat.get? 0 with
            | none => none
            | some w =>
              genLoop pat fuel (noteIndex + 1) 1 (octave + 1)
                (acc ++ [(w + (octave + 1) * 12) % 256])
        else
          genLoop pat fuel (noteIndex + 1) (patternIndex + 1) octave
            (acc ++ [(v + octave * 12) % 256])
    else some (fillFrom acc noteIndex)

/-- `generateFullScales` for one scale index: run the generation loop on
that scale's pattern row (64 fuel is more than the at most 38 iterations
the loop can make). -/
def generateFullScales (scaleIndex : ℕ) : Option (List ℕ) :=
  match scalePatterns.get? scaleIndex with
  | none => none
  | some pat => genLoop pat 64 0 0 0 []

/-- The row `fullScales[s]` of the global `uint8_t fullScales[7][37]`.
The C array always has 37 slots per row regardless of how generation went;
for the Chromatic row the generator's pattern read runs out of bounds (see
the claim about the sentinel), so that row's contents are unspecified and
are represented here by the zero default — only its length is relied on. -/
def fullScalesRow (s : ℕ) : List ℕ :=
  (generateFullScales s).getD (List.replicate 37 0)

/-- The `scaleMode()` threshold chain, as a partial band map: given the
scale-knob reading it returns `some (NoteMode, some NumberOfNotes)` (or
`some (7, none)` for linear mode, which does not set `NumberOfNotes`), and
`none` when no branch of the `if`/`else if` chain fires. -/
def scaleModeBand (scalemode : ℤ) : Option (ℕ × Option ℕ) :=
  if scalemode < 18 then some (0, some 23)
  else if 18 < scalemode ∧ scalemode ≤ 53 then some (1, some 23)
  else if 54 ≤ scalemode ∧ scalemode ≤ 105 then some (2, some 19)
  else if 106 ≤ scalemode ∧ scalemode ≤ 180 then some (3, some 23)
  else if 181 ≤ scalemode ∧ scalemode ≤ 227 then some (4, some 29)
  else if 228 ≤ scalemode ∧ scalemode ≤ 535 then some (5, some 20)
  else if 536 ≤ scalemode ∧ scalemode ≤ 799 then some (6, some 35)
  else if 800 ≤ scalemode then some (7, none)
  else none

/-- The state update performed by `scaleMode()`: variables keep their old
values when the matched band does not assign them (and when no band
matches at all). -/
def scaleModeUpdate (scalemode : ℤ) (noteMode numberOfNotes : ℕ) : ℕ × ℕ :=
  match scaleModeBand scalemode with
  | none => (noteMode, numberOfNotes)
  | some (m, none) => (m, numberOfNotes)
  | some (m, some n) => (m, n)

/-- The `loopLength()` threshold chain: given the length-knob reading it
returns the new `countSize` (last valid step index), or `none` if no
branch fires. -/
def loopLengthBand (seqLength : ℤ) : Option ℕ :=
  if seqLength ≤ 9 then some 1
  else if 10 ≤ seqLength ∧ seqLength ≤ 45 then some 2
  else if 46 ≤ seqLength ∧ seqLength ≤ 120 then some 3
  else if 121 ≤ seqLength ∧ seqLength ≤ 210 then some 7
  else if 211 ≤ seqLength ∧ seqLength ≤ 360 then some 15
  else if 361 ≤ seqLength ∧ seqLength ≤ 799 then some 31
  else if 800 ≤ seqLength then some 63
  else none

/-- Global state of the canonical firmware revision.  `count`, `countSize`,
`NumberOfNotes` and both sequence arrays are `uint8_t` in the source;
`mm`, `raw_mm`, `NoteMode` and the last DAC write are `int`. -/
structure MState where
  count : ℕ
  countSize : ℕ
  noteMode : ℕ
  numberOfNotes : ℕ
  mm : ℤ
  raw_mm : ℤ
  seq : List ℕ
  seqLinear : List ℕ
  clockInput : Bool
  dacOut : ℤ
  deriving DecidableEq

/-- Bounds-checked array store: `none` models an out-of-bounds write. -/
def setChecked (l : List ℕ) (i : ℕ) (v : ℕ) : Option (List ℕ) :=
  if i < l.length then some (l.set i v) else none

/-- `playSeq()`: in scale mode look the stored note index up in
`fullScales[NoteMode]`, convert through `midi_note_to_volts` and
`volts_to_DAC` (with `max_volt = 3.3 + fix`) and write the DAC; in linear
mode (`NoteMode == 7`) write the stored linear value directly.  An
out-of-bounds read of `sequence[count]`, `sequenceLinear[count]` or the
scale row yields `none`. -/
def playSeq (st : MState) : Option MState :=
  if st.noteMode ≠ 7 then
    match st.seq.get? st.count with
    | none => none
    | some idx =>
      match (fullScalesRow st.noteMode).get? idx with
      | none => none
      | some note =>
        some { st with
          dacOut := volts_to_DAC (midi_note_to_volts note) RESOLUTION_12_BIT 0 (33 / 10 + fix) }
  else
    match st.seqLinear.get? st.count with
    | none => none
    | some lin => some { st with dacOut := (lin : ℤ) }

/-- `recordSeq()`: readings above `TopRange = 700` or below 50 record a 0
into `sequence[count]` (whatever the mode) and play; otherwise scale mode
maps the reading to `[0, NumberOfNotes]` and stores it in `sequence`,
while linear mode maps it to `[0, 4095]` and stores it in
`sequenceLinear` — both arrays are `uint8_t`, hence the `% 256` on the
stored byte.  Ends by calling `playSeq`. -/
def recordSeq (st : MState) : Option MState :=
  if 700 < st.mm ∨ st.mm < 50 then
    match setChecked st.seq st.count 0 with
    | none => none
    | some s => playSeq { st with mm := 0, seq := s }
  else if st.noteMode ≠ 7 then
    let m := constrainI (amap st.mm 50 700 0 (st.numberOfNotes : ℤ)) 0 (st.numberOfNotes : ℤ)
    match setChecked st.seq st.count (m.toNat % 256) with
    | none => none
    | some s => playSeq { st with mm := m, seq := s }
  else
    let r := constrainI (amap st.mm 50 700 0 4095) 0 4095
    match setChecked st.seqLinear st.count (r.toNat % 256) with
    | none => none
    | some s => playSeq { st with raw_mm := r, seqLinear := s }

/-- The clock-edge interrupt handler `gate()`: set the flag. -/
def gate (st : MState) : MState := { st with clockInput := true }

/-- The reset-edge interrupt handler `reset()`: `count = 0`. -/
def reset (st : MState) : MState := { st with count := 0 }

/-- `incrementAndWrapCount(count, maxSize)`: `count++` on a `uint8_t`
(wraps mod 256), then reset to 0 when it exceeds `maxSize`. -/
def incrementAndWrapCount (count countSize : ℕ) : ℕ :=
  let c := (count + 1) % 256
  if countSize < c then 0 else c

/-- The body of `loop()` once the `clockInput` flag has been observed:
clear the flag, record (button held) or play (button released) at the
current `count`, then `incrementAndWrapCount(count, countSize)`. -/
def clockStep (recordHeld : Bool) (st : MState) : Option MState :=
  let st0 := { st with clockInput := false }
  match (if recordHeld then recordSeq st0 else playSeq st0) with
  | none => none
  | some st1 => some { st1 with count := incrementAndWrapCount st1.count st1.countSize }

/-- The global state right after `setup()` ran with the given initial knob
readings: `count` holds `(uint8_t)(-1) = 255`, `countSize` comes from
`loopLength()`, `NoteMode`/`NumberOfNotes` from `scaleMode()` (starting
from their zero-initialised globals), and both sequence arrays are the
zero-initialised 64-byte globals. -/
def setupState (lengthKnob scaleKnobReading : ℤ) : MState :=
  let p := scaleModeUpdate scaleKnobReading 0 0
  { count := 255
    countSize := (loopLengthBand lengthKnob).getD 3
    noteMode := p.1
    numberOfNotes := p.2
    mm := 0
    raw_mm := 0
    seq := List.replicate 64 0
    seqLinear := List.replicate 64 0
    clockInput := false
    dacOut := 0 }

/-- The cursor value used to index the sequence at each of `n` successive
clock edges in play mode, or `none` if some edge performs an out-of-bounds
access. -/
def cursorTrace : ℕ → MState → Option (List ℕ)
  | 0, _ => some []
  | n + 1, st =>
    match clockStep false st with
    | none => none
    | some st' => (cursorTrace n st').map (fun l => st.count :: l)

/-- The hand-written `int scale[7][24]` table of the `mudras.ino`
revision. -/
def inoScale : List (List ℤ) :=
  [[0, 2, 4, 5, 7, 9, 11, 12, 14, 16, 17, 19, 21, 23, 24, 26, 28, 29, 31, 33, 35, 36, 36, 36],
   [0, 2, 4, 5, 7, 9, 10, 12, 14, 16, 17, 19, 21, 22, 24, 26, 28, 29, 31, 33, 34, 36, 36, 36],
   [0, 0, 3, 3, 5, 5, 7, 7, 10, 10, 12, 12, 15, 15, 17, 17, 19, 19, 22, 22, 24, 24, 27, 29],
   [0, 2, 3, 5, 7, 8, 11, 12, 14, 15, 17, 19, 20, 23, 24, 26, 27, 29, 31, 32, 35, 36, 36, 36],
   [0, 2, 3, 5, 7, 8, 10, 12, 14, 15, 17, 19, 20, 22, 24, 26, 27, 29, 31, 32, 34, 36, 36, 36],
   [0, 2, 4, 6, 8, 10, 12, 14, 16, 18, 20, 22, 24, 26, 28, 30, 32, 34, 36, 38, 38, 38, 38, 38],
   [0, 1, 2, 3, 4, 5, 6, 7, 8, 9, 10, 11, 12, 13, 14, 15, 16, 17, 18, 19, 20, 21, 22, 23]]

/-- Global state of the `mudras.ino` revision: `count`, `countFlag`,
`countSize` and the single `sequence[64]` array are `int`. -/
structure InoState where
  count : ℤ
  countSize : ℤ
  countFlag : ℤ
  noteMode : ℕ
  mm : ℤ
  raw_mm : ℤ
  seq : List ℤ
  dacOut : ℤ
  deriving DecidableEq

/-- Read an `int` array at an `int` index; a negative or too-large index
is an out-of-bounds access, modelled by `none`. -/
def getIZ (l : List ℤ) (i : ℤ) : Option ℤ :=
  if 0 ≤ i then l.get? i.toNat else none

/-- Store into an `int` array at an `int` index; out of bounds is `none`. -/
def setIZ (l : List ℤ) (i : ℤ) (v : ℤ) : Option (List ℤ) :=
  if 0 ≤ i ∧ i.toNat < l.length then some (l.set i.toNat v) else none

/-- `playSeq()` of the `mudras.ino` revision: linear mode writes
`sequence[count]` straight to the DAC; scale modes look the stored index
up in `scale[NoteMode]` (the `int` value is passed to
`midi_note_to_volts(uint32_t)`, hence `toNat` on the non-negative table
entry) and convert through `volts_to_DAC`. -/
def inoPlaySeq (st : InoState) : Option InoState :=
  if st.noteMode = 7 then
    match getIZ st.seq st.count with
    | none => none
    | some v => some { st with dacOut := v }
  else
    match getIZ st.seq st.count with
    | none => none
    | some idx =>
      match inoScale.get? st.noteMode with
      | none => none
      | some row =>
        match getIZ row idx with
        | none => none
        | some note =>
          some { st with
            dacOut := volts_to_DAC (midi_note_to_volts note.toNat) RESOLUTION_12_BIT 0 (33 / 10) }

/-- `recordSeq()` of the `mudras.ino` revision: store `raw_mm` (linear) or
`mm` (scale) into `sequence[count]`, then play. -/
def inoRecordSeq (st : InoState) : Option InoState :=
  if st.noteMode = 7 then
    match setIZ st.seq st.count st.raw_mm with
    | none => none
    | some s => inoPlaySeq { st with seq := s }
  else
    match setIZ st.seq st.count st.mm with
    | none => none
    | some s => inoPlaySeq { st with seq := s }

/-- `readsensor()` of the `mudras.ino` revision, as a pure function from
the raw sensor reading to the pair `(mm, raw_mm)` it leaves behind:
readings above 675 are snapped to 0, then `raw_mm = map(mm, 20, 650, 0,
4095)` and `mm = map(mm, 20, 675, 0, 18)`.  The two `constrain(...)`
statements in the source discard their result (Arduino `constrain` is an
expression, not an in-place update), so no clamping actually happens. -/
def inoReadsensor (reading : ℤ) : ℤ × ℤ :=
  let mm0 := if 675 < reading then 0 else reading
  let rawMm := amap mm0 20 650 0 4095
  let mm1 := amap mm0 20 675 0 18
  (mm1, rawMm)

/-- The gate-edge body of `loop()` in the `mudras.ino` revision:
`count++`, wrap past `countSize`, then — if the record button is held —
reset `count` and `countFlag` to 0 when the previous edge was in play
mode (`countFlag == 1`) and record; otherwise set `countFlag = 1` and
play. -/
def inoClockStep (recordHeld : Bool) (st : InoState) : Option InoState :=
  let c0 := st.count + 1
  let c1 := if st.countSize < c0 then 0 else c0
  let st1 : InoState := { st with count := c1 }
  match recordHeld with
  | true =>
    if st1.countFlag = 1 then
      inoRecordSeq { st1 with count := 0, countFlag := 0 }
    else
      inoRecordSeq st1
  | false => inoPlaySeq { st1 with countFlag := 1 }

/-! Helper lemmas. -/

theorem floorQ_intCast (n : ℤ) : floorQ (n : ℚ) = n := by
  simp [floorQ, Rat.num_intCast, Rat.den_intCast, Int.fdiv_one]

theorem ceilQ_intCast (n : ℤ) : ceilQ (n : ℚ) = n := by
  have h : -((n : ℤ) : ℚ) = ((-n : ℤ) : ℚ) := by push_cast; ring
  rw [ceilQ, h, floorQ_intCast]
  ring

theorem setChecked_some (l : List ℕ) (i v : ℕ) (s : List ℕ)
    (h : setChecked l i v = some s) : s = l.set i v := by
  unfold setChecked at h
  split at h
  · exact (Option.some.inj h).symm
  · exact Option.noConfusion h

theorem constrainI_bounds (x hi : ℤ) (hhi : 0 ≤ hi) :
    0 ≤ constrainI x 0 hi ∧ constrainI x 0 hi ≤ hi := by
  unfold constrainI
  split_ifs <;> omega

theorem playSeq_frame (st st' : MState) (h : playSeq st = some st') :
    st'.count = st.count ∧ st'.countSize = st.countSize ∧
    st'.seq = st.seq ∧ st'.seqLinear = st.seqLinear ∧
    st'.noteMode = st.noteMode ∧ st'.numberOfNotes = st.numberOfNotes := by
  unfold playSeq at h
  split at h
  · split at h
    · exact Option.noConfusion h
    · split at h
      · exact Option.noConfusion h
      · cases Option.some.inj h
        exact ⟨rfl, rfl, rfl, rfl, rfl, rfl⟩
  · split at h
    · exact Option.noConfusion h
    · cases Option.some.inj h
      exact ⟨rfl, rfl, rfl, rfl, rfl, rfl⟩

theorem fullScalesRow_length (s : ℕ) (hs : s ≤ 6) : (fullScalesRow s).length = 37 := by
  interval_cases s <;> decide

theorem inoPlaySeq_frame (st st' : InoState) (h : inoPlaySeq st = some st') :
    st'.count = st.count ∧ st'.countFlag = st.countFlag := by
  unfold inoPlaySeq at h
  split at h
  · split at h
    · exact Option.noConfusion h
    · cases Option.some.inj h
      exact ⟨rfl, rfl⟩
  · split at h
    · exact Option.noConfusion h
    · split at h
      · exact Option.noConfusion h
      · split at h
        · exact Option.noConfusion h
        · cases Option.some.inj h
          exact ⟨rfl, rfl⟩

theorem recordSeq_preserves_bound (st st' : MState)
    (hnotes : st.numberOfNotes ≤ 35)
    (hinv : ∀ x ∈ st.seq, x ≤ 35)
    (h : recordSeq st = some st') :
    ∀ x ∈ st'.seq, x ≤ 35 := by
  simp only [recordSeq] at h
  by_cases h1 : 700 < st.mm ∨ st.mm < 50
  · rw [if_pos h1] at h
    cases hs : setChecked st.seq st.count 0 with
    | none => rw [hs] at h; exact Option.noConfusion h
    | some s =>
      rw [hs] at h
      have h' : playSeq { st with mm := 0, seq := s } = some st' := h
      have hs' := setChecked_some _ _ _ _ hs
      have hfr := playSeq_frame _ _ h'
      intro x hx
      rw [hfr.2.2.1] at hx
      subst hs'
      rcases List.mem_or_eq_of_mem_set hx with h2 | h2
      · exact hinv x h2
      · omega
  · rw [if_neg h1] at h
    by_cases h2 : st.noteMode ≠ 7
    · rw [if_pos h2] at h
      cases hs : setChecked st.seq st.count
          ((constrainI (amap st.mm 50 700 0 (st.numberOfNotes : ℤ)) 0
            (st.numberOfNotes : ℤ)).toNat % 256) with
      | none => rw [hs] at h; exact Option.noConfusion h
      | some s =>
        rw [hs] at h
        have h' : playSeq { st with
            mm := constrainI (amap st.mm 50 700 0 (st.numberOfNotes : ℤ)) 0
              (st.numberOfNotes : ℤ),
            seq := s } = some st' := h
        have hs' := setChecked_some _ _ _ _ hs
        have hfr := playSeq_frame _ _ h'
        intro x hx
        rw [hfr.2.2.1] at hx
        subst hs'
        rcases List.mem_or_eq_of_mem_set hx with h3 | h3
        · exact hinv x h3
        · have hcb := constrainI_bounds (amap st.mm 50 700 0 (st.numberOfNotes : ℤ))
            (st.numberOfNotes : ℤ) (by positivity)
          have hml : (constrainI (amap st.mm 50 700 0 (st.numberOfNotes : ℤ)) 0
              (st.numberOfNotes : ℤ)).toNat ≤ st.numberOfNotes :=
            Int.toNat_le.mpr hcb.2
          have hmod := Nat.mod_le (constrainI (amap st.mm 50 700 0 (st.numberOfNotes : ℤ)) 0
              (st.numberOfNotes : ℤ)).toNat 256
          omega
    · rw [if_neg h2] at h
      cases hs : setChecked st.seqLinear st.count
          ((constrainI (amap st.mm 50 700 0 4095) 0 4095).toNat % 256) with
      | none => rw [hs] at h; exact Option.noConfusion h
      | some s =>
        rw [hs] at h
        have h' : playSeq { st with
            raw_mm := constrainI (amap st.mm 50 700 0 4095) 0 4095,
            seqLinear := s } = some st' := h
        have hfr := playSeq_frame _ _ h'
        intro x hx
        rw [hfr.2.2.1] at hx
        exact hinv x hx

theorem inoRecordSeq_frame (st st' : InoState) (h : inoRecordSeq st = some st') :
    st'.count = st.count ∧ st'.countFlag = st.countFlag := by
  unfold inoRecordSeq at h
  split at h
  · split at h
    · exact Option.noConfusion h
    · have h2 := inoPlaySeq_frame _ _ h
      exact h2
  · split at h
    · exact Option.noConfusion h
    · have h2 := inoPlaySeq_frame _ _ h
      exact h2

/-! Claim theorems. -/

/-- Claim C1.  The claim states that after initialization the cursor used
at every clock edge lies in `[0, countSize]` and every sequence access is
within the 64-entry arrays, the values following `0, 1, ..., countSize, 0`
with wraparound exactly at `L + 1` edges.  The code initialises `count` to
`(uint8_t)(-1) = 255` and uses it to index `sequence` BEFORE the
increment-and-wrap, so the very first clock edge after power-up (before
any reset edge) indexes `sequence[255]`, out of bounds of the 64-entry
array: this theorem evaluates the code at that failing input (knob
readings 100 and 900, button released) and shows the step performs an
out-of-bounds access (`none`); after a reset edge puts the cursor at 0,
five edges with `countSize = 3` do use cursors `0, 1, 2, 3, 0` exactly as
the claim describes. -/
theorem C1_first_edge_out_of_bounds :
    (setupState 100 900).count = 255 ∧
    clockStep false (setupState 100 900) = none ∧
    cursorTrace 5 (reset (setupState 100 900)) = some [0, 1, 2, 3, 0] := by
  refine ⟨rfl, by decide, by decide⟩

/-- Claim C2.  The claim states that every `fullScales` entry is within
`[0, 36]` and the row is monotonically non-decreasing.  The generation
loop only breaks once `octave >= 4`, so a fourth octave (values 37–47) is
emitted before the 36-padding: for the Major scale the table has its
declared length 37 and its first `patternLength = 7` entries equal the
pattern (those parts of the claim hold), but entry 22 is 38 > 36, entry
27 is 47 > 36, and entry 28 is the pad value 36 < 47, so both the bound
and the monotonicity are violated. -/
theorem C2_major_table_exceeds_bounds :
    (fullScalesRow 0).length = 37 ∧
    (fullScalesRow 0).take 7 = [0, 2, 4, 5, 7, 9, 11] ∧
    (fullScalesRow 0).get? 22 = some 38 ∧
    (fullScalesRow 0).get? 27 = some 47 ∧
    (fullScalesRow 0).get? 28 = some 36 := by
  decide

/-- State just before a record edge in linear mode with the hand at the
700 mm top of range. -/
def c3State : MState :=
  { count := 0, countSize := 3, noteMode := 7, numberOfNotes := 0,
    mm := 700, raw_mm := 0, seq := List.replicate 64 0,
    seqLinear := List.replicate 64 0, clockInput := true, dacOut := 0 }

/-- Claim C3.  The claim states that in linear mode a recorded step
stores the mapped raw DAC value in `[0, 4095]` and playback emits exactly
the stored value.  `sequenceLinear` is declared `uint8_t[64]`, so the
store truncates the 12-bit value mod 256: at 700 mm the mapped value is
4095, but the record-then-play round trip emits 255, not 4095. -/
theorem C3_linear_roundtrip_truncated :
    constrainI (amap 700 50 700 0 4095) 0 4095 = 4095 ∧
    (clockStep true c3State).map MState.dacOut = some 255 := by
  decide

/-- State of the canonical revision at cursor 1 in play mode, linear
mode, hand at 300 mm. -/
def c4pState : MState :=
  { count := 1, countSize := 3, noteMode := 7, numberOfNotes := 0,
    mm := 300, raw_mm := 0, seq := List.replicate 64 0,
    seqLinear := List.replicate 64 0, clockInput := true, dacOut := 0 }

/-- Claim C4, counterexample on the canonical revision: a play edge at
cursor 1 (button released) followed by an edge with the record button
first observed pressed records at cursor 2 — the 300 mm reading maps to
1575, stored as the byte 39 at index 2 — while index 0 is untouched, so
the cursor is NOT forced back to 0 on the Play-to-Record transition (the
canonical revision has no transition detection at all). -/
theorem C4_part001_no_cursor_reset :
    ((clockStep false c4pState).bind (clockStep true)).map
        (fun s => (s.seqLinear.get? 2, s.seqLinear.get? 0)) =
      some (some 39, some 0) := by
  decide

/-- State just before a record edge in linear mode with an out-of-range
714 mm reading and a previously recorded linear value 200 at step 0. -/
def c5State : MState :=
  { count := 0, countSize := 3, noteMode := 7, numberOfNotes := 0,
    mm := 714, raw_mm := 0, seq := List.replicate 64 0,
    seqLinear := 200 :: List.replicate 63 0, clockInput := true, dacOut := 0 }

/-- State just before a record edge in scale mode (Major, 23 notes) with
the hand at exactly 700 mm. -/
def c5ScaleState : MState :=
  { count := 0, countSize := 3, noteMode := 0, numberOfNotes := 23,
    mm := 700, raw_mm := 0, seq := List.replicate 64 0,
    seqLinear := List.replicate 64 0, clockInput := true, dacOut := 0 }

/-- Claim C5.  The claim states that a reading above the 675 mm ceiling
(for example 700 mm) records and emits the value of the minimum valid
distance in both modes.  In the canonical revision the ceiling is
`TopRange = 700`, so 700 mm is treated as valid and in scale mode maps to
the MAXIMUM note index 23 (50 mm, the minimum valid distance, maps to 0);
for readings beyond the ceiling in linear mode the out-of-range branch
writes its 0 into the scale array `sequence` instead of `sequenceLinear`,
and playback emits the stale previously stored linear value 200, not the
minimum-distance value; in the `mudras.ino` revision a 700 mm reading in
linear mode yields `raw_mm = -130` because the result of `constrain` is
discarded — a negative extrapolated value. -/
theorem C5_out_of_range_divergence :
    (clockStep true c5State).map MState.dacOut = some 200 ∧
    (clockStep true c5State).map (fun s => s.seqLinear.get? 0) = some (some 200) ∧
    (clockStep true c5State).map (fun s => s.seq.get? 0) = some (some 0) ∧
    (clockStep true c5ScaleState).map (fun s => s.seq.get? 0) = some (some 23) ∧
    constrainI (amap 50 50 700 0 23) 0 23 = 0 ∧
    (inoReadsensor 700).2 = -130 := by
  refine ⟨by decide, by decide, by decide, by decide, by decide, by decide⟩

/-- Claim C7.  The claim states that for every knob reading in
`[0, 1023]` the scale threshold map assigns exactly one of the 8 modes
and the length threshold map exactly one of the 7 lengths, with adjacent
bands abutting.  The length map is total with values in
`{1, 2, 3, 7, 15, 31, 63}` (loop lengths 2–64), and the scale map fires
for every reading except exactly 18: the second band requires
`scalemode > 18`, so at a reading of 18 no branch of the chain fires and
`NoteMode`/`NumberOfNotes` silently keep their previous values — a gap
between the first two bands. -/
theorem C7_scale_knob_gap_at_18 :
    scaleModeBand 18 = none ∧
    ((List.range 1024).all fun k => k == 18 || (scaleModeBand (k : ℤ)).isSome) = true ∧
    ((List.range 1024).all fun k => (loopLengthBand (k : ℤ)).isSome) = true ∧
    ((List.range 1024).all fun k =>
      [1, 2, 3, 7, 15, 31, 63].contains ((loopLengthBand (k : ℤ)).getD 0)) = true := by
  refine ⟨by decide, by decide, by decide, by decide⟩

/-- Claim C8.  The claim states that every scale's pattern row is
terminated by the sentinel 255 before the 12-entry row ends, so the
pattern index never runs off the row.  The Chromatic row holds all 12
semitones 0–11 and has no room for the sentinel: its 12 entries are all
different from 255 (while rows 0–5 do contain the sentinel), and the
generation loop for the Chromatic scale advances the pattern index to 12
and performs an out-of-bounds pattern read (`none`). -/
theorem C8_chromatic_missing_sentinel :
    generateFullScales 6 = none ∧
    ((scalePatterns.getD 6 []).all fun v => v != 255) = true ∧
    ((List.range 6).all fun s => (scalePatterns.getD s []).contains 255) = true := by
  refine ⟨by decide, by decide, by decide⟩

/-- Claim C10, counterexample: the reset-edge handler `reset()` does
write the cursor — from a state with cursor 5 it sets `count` to 0 —
contradicting the claim that each handler only sets its own boolean flag
and that neither handler writes the cursor. -/
theorem C10_reset_writes_cursor :
    ({ setupState 100 900 with count := 5 } : MState).count = 5 ∧
    (reset { setupState 100 900 with count := 5 }).count = 0 := by
  exact ⟨rfl, rfl⟩

/-- Claim C10, amended: the clock-edge handler `gate()` only sets the
`clockInput` flag and mutates nothing else; the reset-edge handler
`reset()` does not set a flag but writes the single byte `count = 0`, and
mutates nothing else — neither handler touches the sequence storage or
performs any table lookup, and all remaining state mutation happens in
the main loop. -/
theorem C10_handler_frame (st : MState) :
    (gate st).clockInput = true ∧
    (gate st).count = st.count ∧ (gate st).countSize = st.countSize ∧
    (gate st).noteMode = st.noteMode ∧ (gate st).numberOfNotes = st.numberOfNotes ∧
    (gate st).mm = st.mm ∧ (gate st).raw_mm = st.raw_mm ∧
    (gate st).seq = st.seq ∧ (gate st).seqLinear = st.seqLinear ∧
    (gate st).dacOut = st.dacOut ∧
    (reset st).count = 0 ∧
    (reset st).clockInput = st.clockInput ∧ (reset st).countSize = st.countSize ∧
    (reset st).noteMode = st.noteMode ∧ (reset st).numberOfNotes = st.numberOfNotes ∧
    (reset st).mm = st.mm ∧ (reset st).raw_mm = st.raw_mm ∧
    (reset st).seq = st.seq ∧ (reset st).seqLinear = st.seqLinear ∧
    (reset st).dacOut = st.dacOut :=
  ⟨rfl, rfl, rfl, rfl, rfl, rfl, rfl, rfl, rfl, rfl,
   rfl, rfl, rfl, rfl, rfl, rfl, rfl, rfl, rfl, rfl⟩

/-- Evaluation helper for `volts_to_DAC` at inputs whose scaled value is
an exact integer. -/
theorem volts_to_DAC_eq_intCast (volts min_volt max_volt : ℚ) (res : ℕ) (n : ℤ)
    (h : (volts - min_volt) / (max_volt - min_volt) * ((res - 1 : ℕ) : ℚ) = (n : ℚ)) :
    volts_to_DAC volts res min_volt max_volt = n := by
  show ceilQ ((volts - min_volt) / (max_volt - min_volt) * ((res - 1 : ℕ) : ℚ)) = n
  rw [h]
  exact ceilQ_intCast n

/-- Claim C6.  The claim states that for every volts input, including
values outside `[min_volt, max_volt]`, `volts_to_DAC` returns a code
clamped to `[0, 2^resolutionBits - 1]`.  The source performs no clamping
at all: at 6.6 V (twice the 3.3 V ceiling) it returns 8190 > 4095; the
pipeline really produces such inputs — note 47 of the generated Major
table converts to 47/12 V and yields code 4861 > 4095; and below
`min_volt` the computed ceiling is negative (−4095 at −3.3 V), which the
`uint32_t` return conversion then makes undefined behaviour. -/
theorem C6_volts_to_DAC_unclamped :
    volts_to_DAC (33 / 5) RESOLUTION_12_BIT 0 (33 / 10) = 8190 ∧
    volts_to_DAC (midi_note_to_volts 47) RESOLUTION_12_BIT 0 (33 / 10 + fix) = 4861 ∧
    volts_to_DAC (-(33 / 10)) RESOLUTION_12_BIT 0 (33 / 10) = -4095 := by
  refine ⟨?_, ?_, ?_⟩
  · exact volts_to_DAC_eq_intCast _ _ _ _ 8190 (by norm_num [RESOLUTION_12_BIT])
  · show ceilQ ((midi_note_to_volts 47 - 0) / ((33 / 10 + fix : ℚ) - 0) *
      ((RESOLUTION_12_BIT - 1 : ℕ) : ℚ)) = 4861
    rw [show ((midi_note_to_volts 47 - 0) / ((33 / 10 + fix : ℚ) - 0) *
        ((RESOLUTION_12_BIT - 1 : ℕ) : ℚ)) = (1924650 : ℚ) / 396 by
      norm_num [midi_note_to_volts, volts_per_semitone, semitones_per_octave, fix,
        RESOLUTION_12_BIT]]
    norm_num [ceilQ, floorQ]
    decide
  · exact volts_to_DAC_eq_intCast _ _ _ _ (-4095) (by norm_num [RESOLUTION_12_BIT])

/-- Claim C4 (amended): in the `mudras.ino` revision, when a clock edge
finds the record button pressed after the previous edge ran in play mode
(`countFlag = 1`), the cursor is forced back to 0 (and `countFlag` drops
to 0), so recording restarts from the first step; the canonical revision
has no such transition detection and records at the current cursor (see
the counterexample). -/
theorem C4_ino_play_to_record_resets_cursor (st st' : InoState)
    (hflag : st.countFlag = 1) (h : inoClockStep true st = some st') :
    st'.count = 0 ∧ st'.countFlag = 0 := by
  simp only [inoClockStep] at h
  rw [if_pos hflag] at h
  have h2 := inoRecordSeq_frame _ _ h
  exact h2

/-- State of the `mudras.ino` revision: cursor 2, previous edge in play
mode (`countFlag = 1`), record button about to be observed pressed. -/
def c4wState : InoState :=
  { count := 2, countSize := 3, countFlag := 1, noteMode := 7,
    mm := 5, raw_mm := 123, seq := List.replicate 64 0, dacOut := 0 }

/-- The state after the record edge on `c4wState`. -/
def c4wOut : InoState := (inoClockStep true c4wState).getD c4wState

/-- Claim C4, witness: the amended theorem applied at the concrete state
`c4wState`. -/
theorem C4_witness : c4wOut.count = 0 ∧ c4wOut.countFlag = 0 :=
  C4_ino_play_to_record_resets_cursor c4wState c4wOut rfl (by decide)

/-- Claim C9: assuming the cursor is within `[0, 63]`, every scale-table
lookup performed by `playSeq` in scale mode (`NoteMode ≤ 6`) uses an
index within the 37-entry `fullScales` row, provided every stored note
index is at most 35 — which `recordSeq` preserves, since it clamps the
mapped reading to `[0, NumberOfNotes]` (or stores 0 when out of range)
and `scaleMode` never sets `NumberOfNotes` above 35 for any knob reading
in `[0, 1023]`; hence `playSeq` performs no out-of-bounds read. -/
theorem C9_scale_lookup_in_bounds (st : MState)
    (hmode : st.noteMode ≤ 6) (hcount : st.count < 64)
    (hlen : st.seq.length = 64) (hinv : ∀ x ∈ st.seq, x ≤ 35)
    (hnotes : st.numberOfNotes ≤ 35) :
    (∃ idx, st.seq.get? st.count = some idx ∧ idx < 37 ∧ (playSeq st).isSome = true) ∧
    (∀ st', recordSeq st = some st' → ∀ x ∈ st'.seq, x ≤ 35) ∧
    ((List.range 1024).all fun k =>
      match scaleModeBand (k : ℤ) with
      | some (_, some n) => decide (n ≤ 35)
      | _ => true) = true := by
  have hlt : st.count < st.seq.length := by rw [hlen]; exact hcount
  obtain ⟨idx, hidx⟩ : ∃ idx, st.seq.get? st.count = some idx := by
    rw [List.get?_eq_get hlt]
    exact ⟨_, rfl⟩
  have hmem : idx ∈ st.seq := List.get?_mem hidx
  have hle : idx ≤ 35 := hinv idx hmem
  have h7 : st.noteMode ≠ 7 := by omega
  have hrowlen : (fullScalesRow st.noteMode).length = 37 := fullScalesRow_length _ hmode
  have hrowlt : idx < (fullScalesRow st.noteMode).length := by omega
  obtain ⟨note, hnote⟩ : ∃ y, (fullScalesRow st.noteMode).get? idx = some y := by
    rw [List.get?_eq_get hrowlt]
    exact ⟨_, rfl⟩
  refine ⟨⟨idx, hidx, by omega, ?_⟩, ?_, by decide⟩
  · unfold playSeq
    rw [if_pos h7]
    split
    next heq => rw [heq] at hidx; exact Option.noConfusion hidx
    next idx2 heq =>
      rw [heq] at hidx
      have hid : idx2 = idx := Option.some.inj hidx
      subst hid
      split
      next heq2 => rw [heq2] at hnote; exact Option.noConfusion hnote
      next => rfl
  · intro st' h
    exact recordSeq_preserves_bound st st' hnotes hinv h

/-- State with the cursor at step 0, Major scale, 23 notes, hand at
300 mm, sequence arrays in their zero-initialised startup contents. -/
def c9wState : MState :=
  { count := 0, countSize := 3, noteMode := 0, numberOfNotes := 23,
    mm := 300, raw_mm := 0, seq := List.replicate 64 0,
    seqLinear := List.replicate 64 0, clockInput := false, dacOut := 0 }

/-- Claim C9, witness: the theorem applied at the concrete state
`c9wState`, with all hypotheses discharged by computation. -/
theorem C9_witness : (playSeq c9wState).isSome = true := by
  obtain ⟨⟨idx, h1, h2, hs⟩, -, -⟩ :=
    C9_scale_lookup_in_bounds c9wState (by decide) (by decide) (by decide)
      (by decide) (by decide)
  exact hs

end Mudras
